import Mathlib

/-!
Shallow embedding of the grade-parsing pipeline of `src/excel_gui_app.py`
(Excel Grade Parser).  Machine floats are modelled as exact rationals
extended with the two infinities and not-a-number; nullable Int64 cells are
modelled as integer-or-missing cells; pandas DataFrames are lists of row
lookup functions together with their column-label list.  Only the ASCII
fragment of Python string handling is modelled (labels in this pipeline are
ASCII).
-/

deriving instance DecidableEq for Except

/-- Value of a float cell: a finite (exact) rational, an infinity, or
not-a-number.  All finite arithmetic performed by the pipeline is division
and summation of small integers, which floats carry out with only rounding
error, so the rational model is exact up to that rounding. -/
inductive PF where
  | nan
  | pinf
  | ninf
  | q (x : ℚ)
deriving DecidableEq

/-- Addition with numpy semantics: nan absorbs, and pinf + ninf = nan. -/
def pfAdd : PF → PF → PF
  | PF.q a, PF.q b => PF.q (a + b)
  | PF.pinf, PF.pinf => PF.pinf
  | PF.pinf, PF.q _ => PF.pinf
  | PF.q _, PF.pinf => PF.pinf
  | PF.ninf, PF.ninf => PF.ninf
  | PF.ninf, PF.q _ => PF.ninf
  | PF.q _, PF.ninf => PF.ninf
  | _, _ => PF.nan

/-- Division of two Int64 values as numpy true_divide performs it on the
Count and totals columns (line 100 of the source): an exact quotient when
the denominator is nonzero, otherwise a signed infinity, or nan for 0/0. -/
def zdivPF (a b : ℤ) : PF :=
  if b ≠ 0 then PF.q ((a : ℚ) / (b : ℚ))
  else if 0 < a then PF.pinf
  else if a < 0 then PF.ninf
  else PF.nan

/-- Left fold of pfAdd over a list, starting from 0.  Summing a list of
finite values is exact; any nan makes the result nan; mixed infinities
give nan. -/
def pfSum (l : List PF) : PF := l.foldr pfAdd (PF.q 0)

/-- Sum as pandas groupby-agg computes it: nan values are skipped
(missing-data semantics of float columns), infinities are kept. -/
def pfSumSkipNa (l : List PF) : PF := (l.filter (fun p => p ≠ PF.nan)).foldr pfAdd (PF.q 0)

/-- One spreadsheet cell: missing (NA / NaN of a nullable column), a
string, a nullable-Int64 integer, or a float value. -/
inductive Cell where
  | na
  | str (v : String)
  | int (v : ℤ)
  | float (v : PF)
deriving DecidableEq

/-- A DataFrame: ordered column labels plus one lookup function per row.
Cells at labels outside cols never influence the modelled operations. -/
structure DataFrame where
  cols : List String
  rows : List (String → Cell)

/-- GRADE_COLS of line 23. -/
def GRADE_COLS : List String := ["A", "B", "C", "D", "F", "W", "I"]

/-- TARGET_KEYS of line 24. -/
def TARGET_KEYS : List String := ["CourseID", "Course_Name", "Term", "Section"]

/-- HEADER_MINIMUM of line 22. -/
def HEADER_MINIMUM : List String :=
  ["CourseID", "Course Name", "Term", "Section", "A", "B", "C", "D", "F"]

/-! ## String normalisation (clean_columns, detect_header_row) -/

/-- The whitespace class of Python regexes and str.strip, ASCII range. -/
def isPySpace (c : Char) : Bool :=
  c == ' ' || c == '\t' || c == '\n' || c == '\r' || c == '\x0b' || c == '\x0c'

/-- The character class [0-9A-Za-z_] kept by clean_columns line 36. -/
def isWordChar (c : Char) : Bool := c.isAlpha || c.isDigit || c == '_'

/-- Python str.strip over a character list. -/
def pyStripChars (cs : List Char) : List Char :=
  ((cs.dropWhile isPySpace).reverse.dropWhile isPySpace).reverse

/-- Python str.strip on strings. -/
def pyStripStr (s : String) : String := String.mk (pyStripChars s.data)

/-- Substitution of every whitespace run by a single underscore, the
regex replace of clean_columns line 35.  The boolean records whether the
previous character was whitespace. -/
def collapseWsGo : Bool → List Char → List Char
  | _, [] => []
  | prevWs, c :: rest =>
    if isPySpace c then
      (if prevWs then [] else ['_']) ++ collapseWsGo true rest
    else c :: collapseWsGo false rest

/-- Column-label scrub of clean_columns lines 33-36: strip surrounding
whitespace, collapse internal whitespace runs to single underscores, then
drop every character outside [0-9A-Za-z_]. -/
def pyNormalizeChars (cs : List Char) : List Char :=
  (collapseWsGo false (pyStripChars cs)).filter isWordChar

/-- The scrub on strings. -/
def pyNormalize (s : String) : String := String.mk (pyNormalizeChars s.data)

/-- One label as transformed by clean_columns in a table where the
CourseName alias fires (lines 33-38): scrub, then alias the literal
CourseName to Course_Name. -/
def normalizeLabel (s : String) : String :=
  if pyNormalize s = "CourseName" then "Course_Name" else pyNormalize s

/-- The column labels produced by clean_columns (lines 31-39): every label
is scrubbed, and CourseName is renamed to Course_Name only when the
scrubbed labels contain CourseName and do not contain Course_Name.  The
claims settled against this definition are about column labels only, so
the row content (which the source keeps positionally) is not repeated
here. -/
def clean_columns_names (cols : List String) : List String :=
  if (cols.map pyNormalize).contains "CourseName"
      && !(cols.map pyNormalize).contains "Course_Name" then
    (cols.map pyNormalize).map (fun c => if c = "CourseName" then "Course_Name" else c)
  else cols.map pyNormalize

/-! ## Header detection (detect_header_row, lines 51-60) -/

/-- Python str.replace of a space by nothing. -/
def removeSpaces (s : String) : String := String.mk (s.data.filter (fun c => c ≠ ' '))

/-- Python str.lower over the ASCII range. -/
def pyToLower (s : String) : String := String.mk (s.data.map Char.toLower)

/-- Cell-label normalisation of line 55: strip, lowercase, drop spaces. -/
def normCellLabel (s : String) : String := removeSpaces (pyToLower (pyStripStr s))

/-- Required-label normalisation of line 53: lowercase, drop spaces. -/
def normReqLabel (s : String) : String := removeSpaces (pyToLower s)

/-- The normalised labels of one raw grid row: its non-missing cells.
A grid cell is the string rendering of the raw cell value, or none for a
missing cell (NaN under pd.notna). -/
def rowLabels (row : List (Option String)) : List String :=
  row.filterMap (fun c => c.map normCellLabel)

/-- Whether the label set of a row contains every required label, the
subset test of line 56. -/
def rowHasHeader (required : List String) (row : List (Option String)) : Bool :=
  required.all (fun c => (rowLabels row).contains (normReqLabel c))

/-- The message of the ValueError raised at lines 57-60. -/
def headerErrMsg (fileName sheetName : String) (required : List String) : String :=
  "Header row not found in " ++ fileName ++ " / \x27" ++ sheetName ++
    "\x27. Looked for labels like: " ++ String.intercalate ", " required ++ "."

/-- Index of the first matching row, scanning from position n. -/
def findHeaderIdx (required : List String) : Nat → List (List (Option String)) → Option Nat
  | _, [] => none
  | i, row :: rest =>
    if rowHasHeader required row then some i else findHeaderIdx required (i + 1) rest

/-- detect_header_row (lines 51-60) over the raw untyped grid of a sheet. -/
def detect_header_row (fileName sheetName : String) (grid : List (List (Option String)))
    (required : List String) : Except String Nat :=
  match findHeaderIdx required 0 grid with
  | some i => Except.ok i
  | none => Except.error (headerErrMsg fileName sheetName required)

/-! ## Sheet selection (resolve_sheet_filter, lines 72-85) -/

/-- Python str.isdigit over ASCII: nonempty and all decimal digits. -/
def pyIsDigit (s : String) : Bool := decide (s.data ≠ []) && s.data.all Char.isDigit

/-- Python int() on a digit string. -/
def digitsToNat (s : String) : Nat := s.data.foldl (fun n c => 10 * n + (c.toNat - 48)) 0

/-- The out-of-range message of line 80 (int(s) of a digit string is never
negative, so only the upper bound can fail). -/
def idxErrMsg (idx n : Nat) : String :=
  "Sheet index " ++ toString idx ++ " out of range 0.." ++ toString (n - 1)

/-- The unknown-name message of line 83. -/
def nameErrMsg (s fp : String) (names : List String) : String :=
  "Sheet \x27" ++ s ++ "\x27 not in " ++ fp ++ ". Available: " ++ toString names

/-- The loop of lines 75-84: strip each selector, skip empty ones, resolve
digit selectors as indices and the rest as names, raising on the first
failure. -/
def resolveList (fp : String) (names : List String) : List String → Except String (List String)
  | [] => Except.ok []
  | s :: rest =>
    if pyStripStr s = "" then resolveList fp names rest
    else if pyIsDigit (pyStripStr s) then
      match names.get? (digitsToNat (pyStripStr s)) with
      | some nm => (resolveList fp names rest).map (fun l => nm :: l)
      | none => Except.error (idxErrMsg (digitsToNat (pyStripStr s)) names.length)
    else if names.contains (pyStripStr s) then
      (resolveList fp names rest).map (fun l => pyStripStr s :: l)
    else Except.error (nameErrMsg (pyStripStr s) fp names)

/-- resolve_sheet_filter (lines 72-85): a missing or empty selection list
(falsy in Python) selects every sheet in native order. -/
def resolve_sheet_filter (fp : String) (names : List String)
    (sheets : Option (List String)) : Except String (List String) :=
  match sheets with
  | none => Except.ok names
  | some ss => if ss = [] then Except.ok names else resolveList fp names ss

/-- What one selector resolves to, if anything: none both for selectors
that strip to empty (skipped) and for out-of-range or unknown ones. -/
def selResult (names : List String) (s : String) : Option String :=
  if pyStripStr s = "" then none
  else if pyIsDigit (pyStripStr s) then names.get? (digitsToNat (pyStripStr s))
  else if names.contains (pyStripStr s) then some (pyStripStr s) else none

/-- Whether one selector passes the loop without raising: it strips to
empty, or resolves as an in-range index or an existing name. -/
def selResolvable (names : List String) (s : String) : Bool :=
  decide (pyStripStr s = "") ||
    (if pyIsDigit (pyStripStr s) then decide (digitsToNat (pyStripStr s) < names.length)
     else names.contains (pyStripStr s))

/-! ## Wide-form enrichment (add_wide_checks, lines 103-110) -/

/-- The grade columns present in a table, in GRADE_COLS order. -/
def gradePresent (cols : List String) : List String :=
  GRADE_COLS.filter (fun g => cols.contains g)

/-- Integer view of a nullable-Int64 cell for skipna sums: a missing value
contributes 0.  Faithful to pandas for integer-or-missing cells, the dtype
that coerce_types produces for grade columns. -/
def fillInt : Cell → ℤ
  | Cell.int v => v
  | _ => 0

/-- The row-wise skipna sum of the present grade columns (line 107). -/
def gradeRowSum (present : List String) (r : String → Cell) : ℤ :=
  (present.map (fun g => fillInt (r g))).sum

/-- The EnrollDiff cell of line 109: Float64 subtraction, in which a
missing operand propagates to a missing result. -/
def enrollDiffCell (e gt : Cell) : Cell :=
  match e, gt with
  | Cell.int a, Cell.int b => Cell.float (PF.q ((a : ℚ) - (b : ℚ)))
  | _, _ => Cell.na

/-- One enriched row: GradeTotal always (grade columns being present), and
EnrollDiff from the just-computed GradeTotal when Enroll exists. -/
def enrichRow (present : List String) (hasEnroll : Bool) (r : String → Cell) : String → Cell :=
  fun c =>
    if hasEnroll = true ∧ c = "EnrollDiff" then
      enrollDiffCell (r "Enroll") (Cell.int (gradeRowSum present r))
    else if c = "GradeTotal" then Cell.int (gradeRowSum present r)
    else r c

/-- add_wide_checks (lines 103-110).  The guard on line 106 returns the
table unchanged when no grade column is present. -/
def add_wide_checks (df : DataFrame) : DataFrame :=
  if gradePresent df.cols = [] then df
  else
    { cols := df.cols ++ ["GradeTotal"]
        ++ (if df.cols.contains "Enroll" then ["EnrollDiff"] else []),
      rows := df.rows.map (enrichRow (gradePresent df.cols) (df.cols.contains "Enroll")) }

/-! ## Reshape to long form (to_long, lines 93-101) -/

/-- Columns of the melted table: the id columns in original order followed
by the two melt columns (line 96). -/
def longCols (cols : List String) : List String :=
  cols.filter (fun c => !(gradePresent cols).contains c) ++ ["Grade", "Count"]

/-- The grouping keys of line 98: whichever TARGET_KEYS appear among the
melted columns. -/
def melt_keys (cols : List String) : List String :=
  TARGET_KEYS.filter (fun k => (longCols cols).contains k)

/-- The melt of line 96 enumerates one (source row, grade) record per
present grade column, block by block in GRADE_COLS order. -/
def meltRecs (df : DataFrame) : List ((String → Cell) × String) :=
  (gradePresent df.cols).foldr (fun g acc => df.rows.map (fun r => (r, g)) ++ acc) []

/-- Whether a melted Count cell survives fillna(0).astype Int64 (line 97):
missing becomes 0, integers stay, a float that is nan becomes 0 after
fillna, an integral float casts; anything else raises. -/
def countCastOk : Cell → Bool
  | Cell.na => true
  | Cell.int _ => true
  | Cell.float PF.nan => true
  | Cell.float (PF.q x) => decide (x.den = 1)
  | _ => false

/-- The Int64 Count value after fillna(0).astype of line 97, for cells
accepted by countCastOk. -/
def countVal : Cell → ℤ
  | Cell.int v => v
  | Cell.float (PF.q x) => x.num
  | _ => 0

/-- The section key of a melted record, read off its source row (the key
columns are untouched by the melt). -/
def meltKeyOf (cols : List String) (p : (String → Cell) × String) : List Cell :=
  (melt_keys cols).map p.1

/-- The per-key Count total of line 99 (groupby transform sum with
dropna=False: missing key components group together like values). -/
def meltTotal (df : DataFrame) (k : List Cell) : ℤ :=
  (((meltRecs df).filter (fun p => meltKeyOf df.cols p = k)).map
    (fun p => countVal (p.1 p.2))).sum

/-- One output row of to_long: the id columns of the source row, plus
Grade, the filled Count, and Pct = Count divided by the key total. -/
def longRow (df : DataFrame) (p : (String → Cell) × String) : String → Cell :=
  fun c =>
    if c = "Pct" then
      Cell.float (zdivPF (countVal (p.1 p.2)) (meltTotal df (meltKeyOf df.cols p)))
    else if c = "Count" then Cell.int (countVal (p.1 p.2))
    else if c = "Grade" then Cell.str p.2
    else p.1 c

/-- to_long (lines 93-101).  The astype of line 97 raises when a melted
count cell cannot be cast to Int64. -/
def to_long (df : DataFrame) : Except String DataFrame :=
  if (meltRecs df).all (fun p => countCastOk (p.1 p.2)) then
    Except.ok { cols := longCols df.cols ++ ["Pct"],
                rows := (meltRecs df).map (longRow df) }
  else Except.error "cannot safely cast non-equivalent object to int64"

/-! ## Grouping helpers shared by the reshaper and the validator -/

/-- The key columns a table groups by: TARGET_KEYS restricted to the
columns present (lines 98 and 113). -/
def dfKeys (df : DataFrame) : List String :=
  TARGET_KEYS.filter (fun k => df.cols.contains k)

/-- The section key of one row. -/
def rowKey (df : DataFrame) (r : String → Cell) : List Cell := (dfKeys df).map r

/-- The rows of one section group (dropna=False grouping: keys compare as
values, missing included). -/
def groupRows (df : DataFrame) (k : List Cell) : List (String → Cell) :=
  df.rows.filter (fun r => rowKey df r = k)

/-- The Count values of one group. -/
def groupCounts (df : DataFrame) (k : List Cell) : List ℤ :=
  (groupRows df k).map (fun r => fillInt (r "Count"))

/-- Float view of a cell (nan when the cell is not a float). -/
def cellPF : Cell → PF
  | Cell.float v => v
  | _ => PF.nan

/-- The Pct values of one group. -/
def groupPcts (df : DataFrame) (k : List Cell) : List PF :=
  (groupRows df k).map (fun r => cellPF (r "Pct"))

/-- First-occurrence scan of the distinct elements of a list, carrying
the elements already seen. -/
def uniqAux {α : Type} [DecidableEq α] : List α → List α → List α
  | _, [] => []
  | seen, a :: t => if a ∈ seen then uniqAux seen t else a :: uniqAux (a :: seen) t

/-- First-occurrence list of the distinct elements of a list. -/
def uniqList {α : Type} [DecidableEq α] (l : List α) : List α := uniqAux [] l

/-! ## Per-section validation (validate_long, lines 112-121) -/

/-- numpy round-half-to-even of a (finite) value. -/
def roundHalfEven (x : ℚ) : ℤ :=
  if x - Int.floor x > 1/2 then Int.floor x + 1
  else if x - Int.floor x < 1/2 then Int.floor x
  else if Int.floor x % 2 = 0 then Int.floor x else Int.floor x + 1

/-- Rounding to three decimal places (line 119). -/
def round3 (x : ℚ) : ℚ := (roundHalfEven (x * 1000) : ℚ) / 1000

/-- round(3) lifted to float values: nan and the infinities round to
themselves. -/
def pfRound3 : PF → PF
  | PF.q x => PF.q (round3 x)
  | v => v

/-- Series.between on a float value: false for nan and the infinities. -/
def pfBetween (p : PF) (lo hi : ℚ) : Bool :=
  match p with
  | PF.q x => decide (lo ≤ x ∧ x ≤ hi)
  | _ => false

/-- nunique of the Grade column of one group: distinct non-missing
values. -/
def gradeBins (grp : List (String → Cell)) : Nat :=
  (uniqList ((grp.map (fun r => r "Grade")).filter (fun c => c ≠ Cell.na))).length

/-- One aggregate row of validate_long (lines 114-120). -/
structure ValRow where
  key : List Cell
  total_counts : ℤ
  pct_sum : PF
  n_grade_bins : Nat
  ok_pct_sum : Bool
  ok_nonzero : Bool
deriving DecidableEq

/-- The validator row of one section key. -/
def mkValRow (long : DataFrame) (k : List Cell) : ValRow :=
  { key := k,
    total_counts := (groupCounts long k).sum,
    pct_sum := pfSumSkipNa (groupPcts long k),
    n_grade_bins := gradeBins (groupRows long k),
    ok_pct_sum := pfBetween (pfRound3 (pfSumSkipNa (groupPcts long k))) (99/100) (101/100),
    ok_nonzero := decide (0 < (groupCounts long k).sum) }

/-- validate_long (lines 112-121): one aggregate row per distinct section
key, grouped with dropna=False. -/
def validate_long (long : DataFrame) : List ValRow :=
  (uniqList (long.rows.map (rowKey long))).map (mkValRow long)

/-- The distinct-section count of the run summary (line 175).  That
groupby call, unlike lines 99 and 114, leaves dropna at its default of
True, so rows with a missing key component are dropped before counting. -/
def summary_sections (long : DataFrame) : Nat :=
  (uniqList ((long.rows.filter
    (fun r => (rowKey long r).all (fun c => c ≠ Cell.na))).map (rowKey long))).length

/-! ## Orchestration (process_files, lines 133-179) -/

/-- One observable step of process_files, in source order: directory
creation (line 139), workbook loads (line 141, sheet resolution
included), artifact writes (lines 153-166). -/
inductive RunEvent where
  | mkdirRun
  | loadWorkbook (i : Nat)
  | writeFile (name : String)
deriving DecidableEq

/-- The four artifacts persisted to the run directory (lines 148-166). -/
def OUTPUT_FILES : List String :=
  ["grades_combined.csv", "grades_long.csv", "grades_combined_clean.xlsx", "outputs.zip"]

/-- The statement order of process_files: mkdir, then every workbook load
(line 141 runs all loads before any write), then the four writes. -/
def processProgram (n : Nat) : List RunEvent :=
  RunEvent.mkdirRun ::
    ((List.range n).map RunEvent.loadWorkbook ++ OUTPUT_FILES.map RunEvent.writeFile)

/-- Execution of the events in order.  A failing load raises, aborting
everything after it; files already written stay persisted.  The result is
the list of persisted artifact files and whether the run completed. -/
def runEvents (loadOk : Nat → Bool) : List RunEvent → List String × Bool
  | [] => ([], true)
  | RunEvent.mkdirRun :: rest => runEvents loadOk rest
  | RunEvent.loadWorkbook i :: rest =>
    if loadOk i then runEvents loadOk rest else ([], false)
  | RunEvent.writeFile f :: rest =>
    (f :: (runEvents loadOk rest).1, (runEvents loadOk rest).2)

/-! ## Concrete tables used by witnesses and counterexamples -/

/-- Extraction of the table of a successful load (used only to name
concrete outputs in closed statements). -/
def okOr (e : Except String DataFrame) : DataFrame :=
  match e with
  | Except.ok d => d
  | Except.error _ => { cols := [], rows := [] }

/-- A wide row with grades 1 and 3 for section X. -/
def c1wRow : String → Cell := fun c =>
  if c = "CourseID" then Cell.str "X"
  else if c = "A" then Cell.int 1
  else if c = "B" then Cell.int 3
  else Cell.na

/-- A one-row wide table with a nonzero section total. -/
def c1wDf : DataFrame := { cols := ["CourseID", "A", "B"], rows := [c1wRow] }

/-- Its long form. -/
def c1wLong : DataFrame := okOr (to_long c1wDf)

/-- A wide row with grades 1 and -1 for section X: total zero without all
counts being zero. -/
def c1cRow : String → Cell := fun c =>
  if c = "CourseID" then Cell.str "X"
  else if c = "A" then Cell.int 1
  else if c = "B" then Cell.int (-1)
  else Cell.na

/-- A one-row wide table whose section total is zero with nonzero
counts. -/
def c1cDf : DataFrame := { cols := ["CourseID", "A", "B"], rows := [c1cRow] }

/-- Its long form. -/
def c1cLong : DataFrame := okOr (to_long c1cDf)

/-- A grid whose row 3 is the first containing the required label. -/
def c2Grid : List (List (Option String)) :=
  [[some "junk"], [], [some "noise", none], [some " Course ID ", some "x"]]

/-- A row with Enroll but no grade columns. -/
def c4Row : String → Cell := fun c => if c = "Enroll" then Cell.int 5 else Cell.na

/-- A table with Enroll but no grade columns. -/
def c4Df : DataFrame := { cols := ["Enroll"], rows := [c4Row] }

/-- The data row of the end-to-end scenario of the spec. -/
def c4wRow : String → Cell := fun c =>
  if c = "CourseID" then Cell.str "X"
  else if c = "Enroll" then Cell.int 20
  else if c = "A" then Cell.int 10
  else if c = "B" then Cell.int 5
  else if c = "C" then Cell.int 3
  else if c = "D" then Cell.int 1
  else if c = "F" then Cell.int 1
  else if c = "W" then Cell.int 0
  else if c = "I" then Cell.int 0
  else Cell.na

/-- A wide table with all grade columns and Enroll. -/
def c4wDf : DataFrame :=
  { cols := ["CourseID", "Enroll", "A", "B", "C", "D", "F", "W", "I"], rows := [c4wRow] }

/-- A long row of section X, grade A. -/
def c6Row1 : String → Cell := fun c =>
  if c = "CourseID" then Cell.str "X"
  else if c = "Grade" then Cell.str "A"
  else if c = "Count" then Cell.int 3
  else if c = "Pct" then Cell.float (PF.q (3/4))
  else Cell.na

/-- A long row of section X, grade B. -/
def c6Row2 : String → Cell := fun c =>
  if c = "CourseID" then Cell.str "X"
  else if c = "Grade" then Cell.str "B"
  else if c = "Count" then Cell.int 1
  else if c = "Pct" then Cell.float (PF.q (1/4))
  else Cell.na

/-- A two-row long table for one section. -/
def c6Long : DataFrame :=
  { cols := ["CourseID", "Grade", "Count", "Pct"], rows := [c6Row1, c6Row2] }

/-- A long row whose CourseID key component is missing. -/
def c7Row : String → Cell := fun c =>
  if c = "Grade" then Cell.str "A"
  else if c = "Count" then Cell.int 3
  else if c = "Pct" then Cell.float (PF.q 1)
  else Cell.na

/-- A one-row long table whose only key component is missing. -/
def c7Long : DataFrame :=
  { cols := ["CourseID", "Grade", "Count", "Pct"], rows := [c7Row] }

/-! ## Theorems: column-name normalisation (C5, C9) -/

theorem pyspace_not_word {c : Char} (h : isPySpace c = true) : isWordChar c = false := by
  simp only [isPySpace, Bool.or_eq_true, beq_iff_eq] at h
  rcases h with ((((h | h) | h) | h) | h) | h <;> subst h <;> decide

theorem word_not_pyspace {c : Char} (h : isWordChar c = true) : isPySpace c = false := by
  cases hp : isPySpace c
  · rfl
  · rw [pyspace_not_word hp] at h
    exact Bool.noConfusion h

theorem dropWhile_of_none {p : Char → Bool} {l : List Char}
    (h : ∀ c ∈ l, p c = false) : l.dropWhile p = l := by
  cases l with
  | nil => rfl
  | cons a t => simp [List.dropWhile_cons, h a (by simp)]

theorem pyStripChars_of_word {l : List Char}
    (h : ∀ c ∈ l, isWordChar c = true) : pyStripChars l = l := by
  unfold pyStripChars
  rw [dropWhile_of_none (fun c hc => word_not_pyspace (h c hc))]
  rw [dropWhile_of_none (fun c hc => word_not_pyspace (h c (List.mem_reverse.mp hc)))]
  exact List.reverse_reverse l

theorem collapseWsGo_of_word {l : List Char}
    (h : ∀ c ∈ l, isWordChar c = true) (b : Bool) : collapseWsGo b l = l := by
  induction l generalizing b with
  | nil => rfl
  | cons a t ih =>
    unfold collapseWsGo
    rw [word_not_pyspace (h a (by simp))]
    simp only [Bool.false_eq_true, if_false, List.cons.injEq, true_and]
    exact ih (fun c hc => h c (by simp [hc])) false

theorem pyNormalizeChars_all_word {c : Char} {cs : List Char}
    (h : c ∈ pyNormalizeChars cs) : isWordChar c = true :=
  (List.mem_filter.mp h).2

theorem pyNormalizeChars_of_word {l : List Char}
    (h : ∀ c ∈ l, isWordChar c = true) : pyNormalizeChars l = l := by
  unfold pyNormalizeChars
  rw [pyStripChars_of_word h, collapseWsGo_of_word h false]
  exact List.filter_eq_self.mpr h

theorem pyNormalize_idem (s : String) : pyNormalize (pyNormalize s) = pyNormalize s := by
  show String.mk (pyNormalizeChars (pyNormalizeChars s.data)) = String.mk (pyNormalizeChars s.data)
  rw [pyNormalizeChars_of_word (fun c hc => pyNormalizeChars_all_word hc)]

/-- Claim C5: column-name normalisation (trim, collapse internal
whitespace to one underscore, strip characters outside [0-9A-Za-z_],
alias the literal CourseName to Course_Name) is idempotent: normalising
any label twice equals normalising it once. -/
theorem normalizeLabel_idem (s : String) : normalizeLabel (normalizeLabel s) = normalizeLabel s := by
  unfold normalizeLabel
  by_cases h : pyNormalize s = "CourseName"
  · rw [if_pos h]
    have h2 : pyNormalize "Course_Name" = "Course_Name" := by decide
    rw [h2]
    simp
  · rw [if_neg h, if_neg (by rw [pyNormalize_idem s]; exact h), pyNormalize_idem s]

/-- Claim C9: the CourseName alias of clean_columns is conditional on the
whole table.  When the scrubbed labels already contain Course_Name, no
rename happens (a CourseName column stays distinct from Course_Name);
the rename to Course_Name is applied exactly when CourseName is present
and Course_Name absent. -/
theorem clean_columns_alias_conditional (cols : List String) :
    ((cols.map pyNormalize).contains "Course_Name" = true →
      clean_columns_names cols = cols.map pyNormalize) ∧
    ((cols.map pyNormalize).contains "CourseName" = true →
      (cols.map pyNormalize).contains "Course_Name" = false →
      clean_columns_names cols =
        (cols.map pyNormalize).map (fun c => if c = "CourseName" then "Course_Name" else c)) := by
  constructor
  · intro h
    unfold clean_columns_names
    rw [h]
    simp
  · intro h1 h2
    unfold clean_columns_names
    rw [h1, h2]
    simp

/-- Witness for C9: a table whose scrubbed labels are CourseName and
Course_Name keeps both distinct, the CourseName column unrenamed. -/
theorem clean_columns_alias_conditional_w :
    clean_columns_names ["CourseName", "Course Name"] = ["CourseName", "Course_Name"] := by
  have h := (clean_columns_alias_conditional ["CourseName", "Course Name"]).1 (by decide)
  rw [h]
  decide

/-! ## Theorems: header detection (C2) -/

theorem findHeaderIdx_none_iff (required : List String) (grid : List (List (Option String)))
    (n : Nat) :
    findHeaderIdx required n grid = none ↔ ∀ row ∈ grid, rowHasHeader required row = false := by
  induction grid generalizing n with
  | nil => simp [findHeaderIdx]
  | cons a t ih =>
    by_cases h : rowHasHeader required a = true
    · simp [findHeaderIdx, h]
    · rw [Bool.not_eq_true] at h
      simp [findHeaderIdx, h, ih (n + 1)]

theorem findHeaderIdx_some_spec (required : List String) :
    ∀ (grid : List (List (Option String))) (n i : Nat),
    findHeaderIdx required n grid = some i →
    n ≤ i ∧ ∃ row, grid.get? (i - n) = some row ∧ rowHasHeader required row = true ∧
      ∀ j rowj, j < i - n → grid.get? j = some rowj → rowHasHeader required rowj = false := by
  intro grid
  induction grid with
  | nil => intro n i h; simp [findHeaderIdx] at h
  | cons a t ih =>
    intro n i h
    unfold findHeaderIdx at h
    by_cases ha : rowHasHeader required a = true
    · rw [if_pos ha] at h
      injection h with h
      subst h
      refine ⟨Nat.le_refl n, a, ?_, ha, ?_⟩
      · simp
      · intro j rowj hj
        omega
    · rw [Bool.not_eq_true] at ha
      rw [ha] at h
      simp only [Bool.false_eq_true, if_false] at h
      obtain ⟨hle, row, hget, hmatch, hprev⟩ := ih (n + 1) i h
      refine ⟨by omega, row, ?_, hmatch, ?_⟩
      · have : i - n = (i - (n + 1)) + 1 := by omega
        rw [this]
        simpa using hget
      · intro j rowj hj hgetj
        match j, rowj, hj, hgetj with
        | 0, rowj, hj, hgetj =>
          simp at hgetj
          rw [← hgetj]
          exact ha
        | j + 1, rowj, hj, hgetj =>
          refine hprev j rowj (by omega) ?_
          simpa using hgetj

/-- Claim C2: detect_header_row returns the zero-based index of the first
grid row whose set of non-missing normalised cell labels contains every
required label, and it returns the header-not-found error, whose message
names the file and the sheet, exactly when no row of the grid does. -/
theorem detect_header_row_spec (f sh : String) (grid : List (List (Option String)))
    (required : List String) :
    (∀ i, detect_header_row f sh grid required = Except.ok i →
      ∃ row, grid.get? i = some row ∧ rowHasHeader required row = true ∧
        ∀ j rowj, j < i → grid.get? j = some rowj → rowHasHeader required rowj = false) ∧
    ((∃ e, detect_header_row f sh grid required = Except.error e) ↔
      ∀ row ∈ grid, rowHasHeader required row = false) ∧
    (∀ e, detect_header_row f sh grid required = Except.error e →
      e = headerErrMsg f sh required) := by
  refine ⟨?_, ⟨?_, ?_⟩, ?_⟩
  · intro i h
    unfold detect_header_row at h
    cases hf : findHeaderIdx required 0 grid with
    | none => rw [hf] at h; exact Except.noConfusion h
    | some i0 =>
      rw [hf] at h
      injection h with h
      subst h
      obtain ⟨-, row, hget, hmatch, hprev⟩ := findHeaderIdx_some_spec required grid 0 i0 hf
      exact ⟨row, by simpa using hget, hmatch, fun j rowj hj hgetj =>
        hprev j rowj (by omega) hgetj⟩
  · intro ⟨e, h⟩
    unfold detect_header_row at h
    cases hf : findHeaderIdx required 0 grid with
    | none => exact (findHeaderIdx_none_iff required grid 0).mp hf
    | some i0 => rw [hf] at h; exact Except.noConfusion h
  · intro hall
    unfold detect_header_row
    rw [(findHeaderIdx_none_iff required grid 0).mpr hall]
    exact ⟨headerErrMsg f sh required, rfl⟩
  · intro e h
    unfold detect_header_row at h
    cases hf : findHeaderIdx required 0 grid with
    | none =>
      rw [hf] at h
      injection h with h
      exact h.symm
    | some i0 => rw [hf] at h; exact Except.noConfusion h

/-- Witness for C2: on a grid whose row 3 is the first carrying the
required label (case- and space-insensitively), the locator answers 3 and
that row matches while the earlier ones do not. -/
theorem detect_header_row_spec_w :
    ∃ row, c2Grid.get? 3 = some row ∧ rowHasHeader ["CourseID"] row = true ∧
      ∀ j rowj, j < 3 → c2Grid.get? j = some rowj → rowHasHeader ["CourseID"] rowj = false :=
  (detect_header_row_spec "grades.xlsx" "Fall2024" c2Grid ["CourseID"]).1 3 (by decide)

/-! ## Theorems: sheet selection (C3) -/

theorem resolveList_ok_of_resolvable (fp : String) (names : List String) :
    ∀ ss : List String, (∀ s ∈ ss, selResolvable names s = true) →
    resolveList fp names ss = Except.ok (ss.filterMap (selResult names)) := by
  intro ss
  induction ss with
  | nil => intro _; rfl
  | cons a t ih =>
    intro h
    have ha := h a (List.mem_cons_self a t)
    have ht := ih (fun s hs => h s (List.mem_cons_of_mem a hs))
    unfold selResolvable at ha
    rw [Bool.or_eq_true, decide_eq_true_eq] at ha
    unfold resolveList
    rw [List.filterMap_cons]
    by_cases h0 : pyStripStr a = ""
    · have hres : selResult names a = none := by
        unfold selResult
        rw [if_pos h0]
      rw [if_pos h0, hres, ht]
    · replace ha : (if pyIsDigit (pyStripStr a) = true then
          decide (digitsToNat (pyStripStr a) < names.length)
        else names.contains (pyStripStr a)) = true := by
        rcases ha with ha | ha
        · exact absurd ha h0
        · exact ha
      rw [if_neg h0]
      by_cases hd : pyIsDigit (pyStripStr a) = true
      · rw [if_pos hd, decide_eq_true_eq] at ha
        have hnm := List.get?_eq_get ha
        have hres : selResult names a =
            some (names.get ⟨digitsToNat (pyStripStr a), ha⟩) := by
          unfold selResult
          rw [if_neg h0, if_pos hd, hnm]
        rw [if_pos hd, hnm]
        simp only [ht, Except.map]
        rw [hres]
      · rw [if_neg hd] at ha
        have hres : selResult names a = some (pyStripStr a) := by
          unfold selResult
          rw [if_neg h0, if_neg hd, if_pos ha]
        rw [if_neg hd, if_pos ha]
        simp only [ht, Except.map]
        rw [hres]

theorem resolveList_error_of_bad (fp : String) (names : List String) :
    ∀ ss : List String, (∃ s ∈ ss, selResolvable names s = false) →
    ∃ e, resolveList fp names ss = Except.error e := by
  intro ss
  induction ss with
  | nil => intro h; simp at h
  | cons a t ih =>
    intro h
    unfold resolveList
    by_cases hbad : selResolvable names a = false
    · unfold selResolvable at hbad
      rw [Bool.or_eq_false_iff, decide_eq_false_iff_not] at hbad
      obtain ⟨h0, hrest⟩ := hbad
      rw [if_neg h0]
      by_cases hd : pyIsDigit (pyStripStr a) = true
      · rw [if_pos hd, decide_eq_false_iff_not] at hrest
        have hnone : names.get? (digitsToNat (pyStripStr a)) = none := by
          rw [List.get?_eq_none]
          omega
        rw [if_pos hd, hnone]
        exact ⟨_, rfl⟩
      · rw [if_neg hd] at hrest
        rw [if_neg hd, if_neg (by rw [hrest]; exact Bool.noConfusion)]
        exact ⟨_, rfl⟩
    · rw [Bool.not_eq_false] at hbad
      have hbadt : ∃ s ∈ t, selResolvable names s = false := by
        obtain ⟨s, hs, hsf⟩ := h
        rcases List.mem_cons.mp hs with hs | hs
        · subst hs
          rw [hbad] at hsf
          exact Bool.noConfusion hsf
        · exact ⟨s, hs, hsf⟩
      obtain ⟨e, he⟩ := ih hbadt
      unfold selResolvable at hbad
      rw [Bool.or_eq_true, decide_eq_true_eq] at hbad
      by_cases h0 : pyStripStr a = ""
      · rw [if_pos h0]
        exact ⟨e, he⟩
      · replace hbad : (if pyIsDigit (pyStripStr a) = true then
            decide (digitsToNat (pyStripStr a) < names.length)
          else names.contains (pyStripStr a)) = true := by
          rcases hbad with hbad | hbad
          · exact absurd hbad h0
          · exact hbad
        rw [if_neg h0]
        by_cases hd : pyIsDigit (pyStripStr a) = true
        · rw [if_pos hd, decide_eq_true_eq] at hbad
          have hnm := List.get?_eq_get hbad
          rw [if_pos hd, hnm]
          simp only [he, Except.map]
          exact ⟨e, rfl⟩
        · rw [if_neg hd] at hbad
          rw [if_neg hd, if_pos hbad]
          simp only [he, Except.map]
          exact ⟨e, rfl⟩

theorem resolveList_error_first (fp : String) (names : List String) :
    ∀ (pre : List String) (s : String) (post : List String),
    (∀ x ∈ pre, selResolvable names x = true) →
    selResolvable names s = false →
    resolveList fp names (pre ++ s :: post) = Except.error
      (if pyIsDigit (pyStripStr s) then idxErrMsg (digitsToNat (pyStripStr s)) names.length
       else nameErrMsg (pyStripStr s) fp names) := by
  intro pre
  induction pre with
  | nil =>
    intro s post _ hbad
    unfold selResolvable at hbad
    rw [Bool.or_eq_false_iff, decide_eq_false_iff_not] at hbad
    obtain ⟨h0, hrest⟩ := hbad
    rw [List.nil_append]
    unfold resolveList
    rw [if_neg h0]
    by_cases hd : pyIsDigit (pyStripStr s) = true
    · rw [if_pos hd, decide_eq_false_iff_not] at hrest
      have hnone : names.get? (digitsToNat (pyStripStr s)) = none := by
        rw [List.get?_eq_none]
        omega
      rw [if_pos hd, hnone, if_pos hd]
    · rw [if_neg hd] at hrest
      rw [if_neg hd, if_neg (by rw [hrest]; exact Bool.noConfusion), if_neg hd]
  | cons a t ih =>
    intro s post hres hbad
    have ha := hres a (List.mem_cons_self a t)
    have hrec := ih s post (fun x hx => hres x (List.mem_cons_of_mem a hx)) hbad
    unfold selResolvable at ha
    rw [Bool.or_eq_true, decide_eq_true_eq] at ha
    rw [List.cons_append]
    unfold resolveList
    by_cases h0 : pyStripStr a = ""
    · rw [if_pos h0]
      exact hrec
    · replace ha : (if pyIsDigit (pyStripStr a) = true then
          decide (digitsToNat (pyStripStr a) < names.length)
        else names.contains (pyStripStr a)) = true := by
        rcases ha with ha | ha
        · exact absurd ha h0
        · exact ha
      rw [if_neg h0]
      by_cases hd : pyIsDigit (pyStripStr a) = true
      · rw [if_pos hd, decide_eq_true_eq] at ha
        have hnm := List.get?_eq_get ha
        rw [if_pos hd, hnm, hrec]
        rfl
      · rw [if_neg hd] at ha
        rw [if_neg hd, if_pos ha, hrec]
        rfl

/-- Claim C3 (amended): with no selection list, or an empty one, every
sheet is used in native order.  Each selector is first stripped of
surrounding whitespace and selectors that strip to empty are silently
skipped; each remaining all-digit selector must be an index inside
[0, sheet_count) and any other must equal an existing sheet name, the
resolved sheets being collected in selector order; if any nonempty
stripped selector is unresolved, the whole workbook load aborts with the
error message of the first such selector: an out-of-range index error
naming the index and the valid range (idxErrMsg, line 80), or an
unknown-name error naming the selector, the file and the available sheet
names (nameErrMsg, line 83). -/
theorem resolve_sheet_filter_spec (fp : String) (names : List String) (ss : List String) :
    (resolve_sheet_filter fp names none = Except.ok names) ∧
    (resolve_sheet_filter fp names (some []) = Except.ok names) ∧
    (ss ≠ [] → (∀ s ∈ ss, selResolvable names s = true) →
      resolve_sheet_filter fp names (some ss) = Except.ok (ss.filterMap (selResult names))) ∧
    ((∃ s ∈ ss, selResolvable names s = false) →
      ∃ e, resolve_sheet_filter fp names (some ss) = Except.error e) ∧
    (∀ pre s post, ss = pre ++ s :: post →
      (∀ x ∈ pre, selResolvable names x = true) →
      selResolvable names s = false →
      resolve_sheet_filter fp names (some ss) = Except.error
        (if pyIsDigit (pyStripStr s) then idxErrMsg (digitsToNat (pyStripStr s)) names.length
         else nameErrMsg (pyStripStr s) fp names)) := by
  refine ⟨rfl, rfl, ?_, ?_, ?_⟩
  · intro hne hall
    show (if ss = [] then Except.ok names else resolveList fp names ss) = _
    rw [if_neg hne]
    exact resolveList_ok_of_resolvable fp names ss hall
  · intro hbad
    have hne : ss ≠ [] := by
      obtain ⟨s, hs, -⟩ := hbad
      intro hc
      subst hc
      simp at hs
    show ∃ e, (if ss = [] then Except.ok names else resolveList fp names ss) = Except.error e
    rw [if_neg hne]
    exact resolveList_error_of_bad fp names ss hbad
  · intro pre s post hss hres hbad
    subst hss
    show (if pre ++ s :: post = [] then Except.ok names
      else resolveList fp names (pre ++ s :: post)) = _
    rw [if_neg (by simp)]
    exact resolveList_error_first fp names pre s post hres hbad

/-- Witness for C3: the selection ["0", "Spring2025"] on the workbook
["Fall2024", "Spring2025"] resolves to both sheets in selector order. -/
theorem resolve_sheet_filter_spec_w :
    resolve_sheet_filter "wb.xlsx" ["Fall2024", "Spring2025"] (some ["0", "Spring2025"]) =
      Except.ok ["Fall2024", "Spring2025"] := by
  have h := (resolve_sheet_filter_spec "wb.xlsx" ["Fall2024", "Spring2025"]
    ["0", "Spring2025"]).2.2.1 (by decide) (by decide)
  rw [h]
  decide

/-- Claim C3 counterexample: the selector consisting of one space is
neither an all-digit index nor an existing sheet name, so under the claim
the load must abort with an error; the code strips it to empty, skips it
silently, and resolution succeeds (with an empty resolved list). -/
theorem resolve_sheet_filter_cex :
    resolve_sheet_filter "wb.xlsx" ["Fall2024", "Spring2025"] (some [" "]) = Except.ok [] ∧
    pyIsDigit " " = false ∧
    (["Fall2024", "Spring2025"].contains " ") = false := by decide

/-! ## Theorems: wide-form enrichment (C4) -/

theorem zip_map_self {α β : Type} (f : α → β) (l : List α) :
    ∀ pr ∈ l.zip (l.map f), pr.2 = f pr.1 := by
  induction l with
  | nil => simp
  | cons a t ih =>
    intro pr hpr
    rw [List.map_cons, List.zip_cons_cons] at hpr
    rcases List.mem_cons.mp hpr with hpr | hpr
    · subst hpr
      rfl
    · exact ih pr hpr

/-- Claim C4 (amended): whenever at least one of the grade columns
{A,B,C,D,F,W,I} is present, the enricher adds GradeTotal, equal on every
row to the skipna sum of the present grade columns (absent columns
contribute nothing), and, when an Enroll column is also present, adds
EnrollDiff = Enroll - GradeTotal in a nullable float type: a missing
Enroll yields a missing EnrollDiff rather than an error.  (When no grade
column is present the table is returned unchanged; see the
counterexample.) -/
theorem add_wide_checks_spec (df : DataFrame) (hp : gradePresent df.cols ≠ []) :
    ((add_wide_checks df).cols.contains "GradeTotal" = true) ∧
    ((add_wide_checks df).rows.length = df.rows.length) ∧
    (∀ pr ∈ df.rows.zip (add_wide_checks df).rows,
      pr.2 "GradeTotal" = Cell.int (gradeRowSum (gradePresent df.cols) pr.1) ∧
      (df.cols.contains "Enroll" = true →
        pr.2 "EnrollDiff" =
          enrollDiffCell (pr.1 "Enroll") (Cell.int (gradeRowSum (gradePresent df.cols) pr.1))) ∧
      (df.cols.contains "Enroll" = true → pr.1 "Enroll" = Cell.na →
        pr.2 "EnrollDiff" = Cell.na) ∧
      (∀ a : ℤ, df.cols.contains "Enroll" = true → pr.1 "Enroll" = Cell.int a →
        pr.2 "EnrollDiff" =
          Cell.float (PF.q ((a : ℚ) - (gradeRowSum (gradePresent df.cols) pr.1 : ℚ))))) := by
  have hrows : (add_wide_checks df).rows =
      df.rows.map (enrichRow (gradePresent df.cols) (df.cols.contains "Enroll")) := by
    unfold add_wide_checks
    rw [if_neg hp]
  have hcols : (add_wide_checks df).cols =
      df.cols ++ ["GradeTotal"] ++ (if df.cols.contains "Enroll" then ["EnrollDiff"] else []) := by
    unfold add_wide_checks
    rw [if_neg hp]
  refine ⟨?_, ?_, ?_⟩
  · rw [hcols]
    simp
  · rw [hrows, List.length_map]
  · intro pr hpr
    rw [hrows] at hpr
    have h2 := zip_map_self (enrichRow (gradePresent df.cols) (df.cols.contains "Enroll"))
      df.rows pr hpr
    have hgt : pr.2 "GradeTotal" = Cell.int (gradeRowSum (gradePresent df.cols) pr.1) := by
      rw [h2]
      unfold enrichRow
      rw [if_neg (by intro hc; exact absurd hc.2 (by decide)), if_pos rfl]
    refine ⟨hgt, ?_, ?_, ?_⟩
    · intro hen
      rw [h2]
      unfold enrichRow
      rw [if_pos ⟨hen, rfl⟩]
    · intro hen hna
      rw [h2]
      unfold enrichRow
      rw [if_pos ⟨hen, rfl⟩]
      rw [hna]
      rfl
    · intro a hen hint
      rw [h2]
      unfold enrichRow
      rw [if_pos ⟨hen, rfl⟩]
      rw [hint]
      rfl

/-- Witness for C4 at the end-to-end scenario row of the spec: grades
10,5,3,1,1,0,0 and Enroll 20 give GradeTotal 20 and EnrollDiff 0. -/
theorem add_wide_checks_spec_w :
    enrichRow (gradePresent c4wDf.cols) (c4wDf.cols.contains "Enroll") c4wRow "GradeTotal" =
      Cell.int 20 ∧
    enrichRow (gradePresent c4wDf.cols) (c4wDf.cols.contains "Enroll") c4wRow "EnrollDiff" =
      Cell.float (PF.q 0) := by
  have hz : c4wDf.rows.zip ((add_wide_checks c4wDf).rows) =
      [(c4wRow, enrichRow (gradePresent c4wDf.cols) (c4wDf.cols.contains "Enroll") c4wRow)] :=
    rfl
  have h := (add_wide_checks_spec c4wDf (by decide)).2.2
    (c4wRow, enrichRow (gradePresent c4wDf.cols) (c4wDf.cols.contains "Enroll") c4wRow)
    (by rw [hz]; exact List.mem_singleton.mpr rfl)
  refine ⟨h.1.trans (by decide), (h.2.2.2 20 (by decide) (by decide)).trans ?_⟩
  show Cell.float (PF.q ((20 : ℤ) - (gradeRowSum (gradePresent c4wDf.cols) c4wRow : ℚ)))
    = Cell.float (PF.q 0)
  rw [show gradeRowSum (gradePresent c4wDf.cols) c4wRow = 20 from by decide]
  norm_num

/-- Claim C4 counterexample: a table with an Enroll column but no grade
columns is returned unchanged by add_wide_checks; neither GradeTotal nor
EnrollDiff is added, although the claim requires both. -/
theorem add_wide_checks_cex :
    (add_wide_checks c4Df).cols = ["Enroll"] ∧
    ((add_wide_checks c4Df).cols.contains "GradeTotal") = false ∧
    ((add_wide_checks c4Df).cols.contains "EnrollDiff") = false ∧
    (c4Df.cols.contains "Enroll") = true := by decide

/-! ## Theorems: run orchestration (C8) -/

theorem runEvents_loads (loadOk : Nat → Bool) (rest : List RunEvent) :
    ∀ is : List Nat,
    ((∀ i ∈ is, loadOk i = true) →
      runEvents loadOk (is.map RunEvent.loadWorkbook ++ rest) = runEvents loadOk rest) ∧
    ((∃ i ∈ is, loadOk i = false) →
      runEvents loadOk (is.map RunEvent.loadWorkbook ++ rest) = ([], false)) := by
  intro is
  induction is with
  | nil => exact ⟨fun _ => rfl, fun h => by simp at h⟩
  | cons a t ih =>
    constructor
    · intro h
      rw [List.map_cons, List.cons_append]
      show (if loadOk a then runEvents loadOk (t.map RunEvent.loadWorkbook ++ rest)
        else ([], false)) = _
      rw [if_pos (h a (List.mem_cons_self a t))]
      exact ih.1 (fun i hi => h i (List.mem_cons_of_mem a hi))
    · intro h
      rw [List.map_cons, List.cons_append]
      show (if loadOk a then runEvents loadOk (t.map RunEvent.loadWorkbook ++ rest)
        else ([], false)) = _
      by_cases ha : loadOk a = true
      · rw [if_pos ha]
        refine ih.2 ?_
        obtain ⟨i, hi, hif⟩ := h
        rcases List.mem_cons.mp hi with hi | hi
        · subst hi
          rw [ha] at hif
          exact Bool.noConfusion hif
        · exact ⟨i, hi, hif⟩
      · rw [Bool.not_eq_true] at ha
        rw [ha]
        simp

/-- Claim C8: in the modelled statement order of process_files every
workbook load (and the sheet resolution inside it) runs before any
artifact write, so a run in which some load fails persists no output file
at all, while a run whose loads all succeed persists the complete
four-artifact set. -/
theorem process_files_atomic (loadOk : Nat → Bool) (n : Nat) :
    ((∃ i, i < n ∧ loadOk i = false) →
      runEvents loadOk (processProgram n) = ([], false)) ∧
    ((∀ i, i < n → loadOk i = true) →
      runEvents loadOk (processProgram n) = (OUTPUT_FILES, true)) := by
  have hw : runEvents loadOk (OUTPUT_FILES.map RunEvent.writeFile) = (OUTPUT_FILES, true) := rfl
  constructor
  · intro ⟨i, hi, hif⟩
    show runEvents loadOk ((List.range n).map RunEvent.loadWorkbook
      ++ OUTPUT_FILES.map RunEvent.writeFile) = ([], false)
    exact (runEvents_loads loadOk (OUTPUT_FILES.map RunEvent.writeFile) (List.range n)).2
      ⟨i, List.mem_range.mpr hi, hif⟩
  · intro h
    show runEvents loadOk ((List.range n).map RunEvent.loadWorkbook
      ++ OUTPUT_FILES.map RunEvent.writeFile) = (OUTPUT_FILES, true)
    rw [(runEvents_loads loadOk (OUTPUT_FILES.map RunEvent.writeFile) (List.range n)).1
      (fun i hi => h i (List.mem_range.mp hi))]
    exact hw

/-- Witness for C8: with two workbooks of which the second fails to load,
nothing is persisted and the run is marked failed. -/
theorem process_files_atomic_w :
    runEvents (fun i => decide (i ≠ 1)) (processProgram 2) = ([], false) :=
  (process_files_atomic (fun i => decide (i ≠ 1)) 2).1 ⟨1, by decide, by decide⟩

/-! ## Theorems: reshape to long form (C1) -/

theorem filter_of_map {α β : Type} (f : α → β) (p : β → Bool) (l : List α) :
    (l.map f).filter p = (l.filter (fun a => p (f a))).map f := by
  induction l with
  | nil => rfl
  | cons a t ih =>
    rw [List.map_cons, List.filter_cons, List.filter_cons]
    by_cases h : p (f a) = true
    · rw [if_pos h, if_pos h, ih, List.map_cons]
    · rw [if_neg h, if_neg h, ih]

theorem to_long_ok (df long : DataFrame) (h : to_long df = Except.ok long) :
    long.cols = longCols df.cols ++ ["Pct"] ∧
    long.rows = (meltRecs df).map (longRow df) := by
  unfold to_long at h
  by_cases hall : (meltRecs df).all (fun p => countCastOk (p.1 p.2)) = true
  · rw [if_pos hall] at h
    injection h with h
    subst h
    exact ⟨rfl, rfl⟩
  · rw [if_neg hall] at h
    exact Except.noConfusion h

theorem contains_append_single_ne (l : List String) (k x : String) (h : (k == x) = false) :
    (l ++ [x]).contains k = l.contains k := by
  induction l with
  | nil => simp [List.contains, List.elem, h]
  | cons c cs ih =>
    by_cases hck : (k == c) = true
    · simp [List.contains, List.elem, hck]
    · rw [Bool.not_eq_true] at hck
      simpa [List.contains, List.elem, hck] using ih

theorem dfKeys_long (df long : DataFrame) (h : to_long df = Except.ok long) :
    dfKeys long = melt_keys df.cols := by
  unfold dfKeys melt_keys
  rw [(to_long_ok df long h).1]
  apply List.filter_congr
  intro k hk
  exact contains_append_single_ne (longCols df.cols) k "Pct" (by fin_cases hk <;> decide)

theorem longRow_keys (df : DataFrame) (p : (String → Cell) × String) :
    (melt_keys df.cols).map (longRow df p) = meltKeyOf df.cols p := by
  unfold meltKeyOf
  apply List.map_congr_left
  intro k hk
  have h1 : k ∈ TARGET_KEYS := List.mem_of_mem_filter hk
  have h2 : k ≠ "Pct" ∧ k ≠ "Count" ∧ k ≠ "Grade" := by
    fin_cases h1 <;> exact ⟨by decide, by decide, by decide⟩
  unfold longRow
  rw [if_neg h2.1, if_neg h2.2.1, if_neg h2.2.2]

theorem longRow_count_val (df : DataFrame) (p : (String → Cell) × String) :
    longRow df p "Count" = Cell.int (countVal (p.1 p.2)) := by
  unfold longRow
  rw [if_neg (by decide), if_pos rfl]

theorem longRow_pct_val (df : DataFrame) (p : (String → Cell) × String) :
    longRow df p "Pct" =
      Cell.float (zdivPF (countVal (p.1 p.2)) (meltTotal df (meltKeyOf df.cols p))) := by
  unfold longRow
  rw [if_pos rfl]

theorem groupRows_long (df long : DataFrame) (h : to_long df = Except.ok long) (k : List Cell) :
    groupRows long k =
      ((meltRecs df).filter (fun p => meltKeyOf df.cols p = k)).map (longRow df) := by
  unfold groupRows
  rw [(to_long_ok df long h).2, filter_of_map]
  have hpt : ∀ p ∈ meltRecs df,
      (decide (rowKey long (longRow df p) = k)) = (decide (meltKeyOf df.cols p = k)) := by
    intro p _
    unfold rowKey
    rw [dfKeys_long df long h, longRow_keys]
  rw [List.filter_congr hpt]

theorem groupCounts_long (df long : DataFrame) (h : to_long df = Except.ok long) (k : List Cell) :
    groupCounts long k =
      ((meltRecs df).filter (fun p => meltKeyOf df.cols p = k)).map
        (fun p => countVal (p.1 p.2)) := by
  unfold groupCounts
  rw [groupRows_long df long h k, List.map_map]
  apply List.map_congr_left
  intro p _
  show fillInt (longRow df p "Count") = countVal (p.1 p.2)
  rw [longRow_count_val]
  rfl

theorem groupCounts_sum_long (df long : DataFrame) (h : to_long df = Except.ok long)
    (k : List Cell) : (groupCounts long k).sum = meltTotal df k := by
  rw [groupCounts_long df long h k]
  rfl

theorem groupPcts_long (df long : DataFrame) (h : to_long df = Except.ok long) (k : List Cell) :
    groupPcts long k =
      (((meltRecs df).filter (fun p => meltKeyOf df.cols p = k)).map
        (fun p => countVal (p.1 p.2))).map (fun n => zdivPF n (meltTotal df k)) := by
  unfold groupPcts
  rw [groupRows_long df long h k, List.map_map, List.map_map]
  apply List.map_congr_left
  intro p hp
  have hk : meltKeyOf df.cols p = k := of_decide_eq_true (List.mem_filter.mp hp).2
  show cellPF (longRow df p "Pct") = zdivPF (countVal (p.1 p.2)) (meltTotal df k)
  rw [longRow_pct_val, hk]
  rfl

theorem pfSum_map_q (l : List ℚ) : pfSum (l.map PF.q) = PF.q l.sum := by
  induction l with
  | nil => rfl
  | cons a t ih =>
    rw [List.map_cons]
    show pfAdd (PF.q a) (pfSum (t.map PF.q)) = _
    rw [ih, List.sum_cons]
    rfl

theorem list_sum_div (l : List ℤ) (T : ℚ) :
    (l.map (fun n : ℤ => (n : ℚ) / T)).sum = (l.sum : ℚ) / T := by
  induction l with
  | nil => simp
  | cons a t ih =>
    rw [List.map_cons, List.sum_cons, ih, List.sum_cons]
    push_cast
    rw [add_div]

theorem all_zero_of_sum_zero (l : List ℤ) (h : ∀ n ∈ l, 0 ≤ n) (hs : l.sum = 0) :
    ∀ n ∈ l, n = 0 := by
  induction l with
  | nil => simp
  | cons a t ih =>
    rw [List.sum_cons] at hs
    have hts : 0 ≤ t.sum := List.sum_nonneg (fun n hn => h n (List.mem_cons_of_mem a hn))
    have ha : 0 ≤ a := h a (List.mem_cons_self a t)
    intro n hn
    rcases List.mem_cons.mp hn with hn | hn
    · omega
    · exact ih (fun m hm => h m (List.mem_cons_of_mem a hm)) (by omega) n hn

/-- Claim C1 (amended): in the long table produced by to_long, every row
of a section group carries Pct = Count divided by the group total; for
every group with nonzero total the Pct values sum exactly to 1 (hence
within [0.99, 1.01]); and for every group with zero total whose Count
values are all nonnegative (so all zero), every Pct is not-a-number.  (A
zero-total group with counts of mixed sign yields signed infinities
instead of nan; see the counterexample.) -/
theorem to_long_pct_spec (df long : DataFrame) (k : List Cell)
    (hok : to_long df = Except.ok long) :
    (∀ r ∈ groupRows long k,
      r "Pct" = Cell.float (zdivPF (fillInt (r "Count")) ((groupCounts long k).sum))) ∧
    ((groupCounts long k).sum ≠ 0 →
      ∃ s : ℚ, pfSum (groupPcts long k) = PF.q s ∧ s = 1 ∧
        (99 : ℚ) / 100 ≤ s ∧ s ≤ (101 : ℚ) / 100) ∧
    ((∀ n ∈ groupCounts long k, 0 ≤ n) → (groupCounts long k).sum = 0 →
      ∀ v ∈ groupPcts long k, v = PF.nan) := by
  refine ⟨?_, ?_, ?_⟩
  · intro r hr
    rw [groupRows_long df long hok k] at hr
    obtain ⟨p, hp, hpr⟩ := List.mem_map.mp hr
    have hk : meltKeyOf df.cols p = k := of_decide_eq_true (List.mem_filter.mp hp).2
    subst hpr
    rw [longRow_pct_val, longRow_count_val, hk, groupCounts_sum_long df long hok k]
    rfl
  · intro hne
    have hT : meltTotal df k ≠ 0 := by
      rw [← groupCounts_sum_long df long hok k]
      exact hne
    refine ⟨1, ?_, rfl, by norm_num, by norm_num⟩
    rw [groupPcts_long df long hok k]
    have hmap : ∀ n ∈ ((meltRecs df).filter (fun p => meltKeyOf df.cols p = k)).map
        (fun p => countVal (p.1 p.2)),
        zdivPF n (meltTotal df k) = PF.q ((n : ℚ) / (meltTotal df k : ℚ)) := by
      intro n _
      unfold zdivPF
      rw [if_pos hT]
    rw [List.map_congr_left hmap]
    rw [show (fun n : ℤ => PF.q ((n : ℚ) / (meltTotal df k : ℚ))) =
      PF.q ∘ (fun n : ℤ => (n : ℚ) / (meltTotal df k : ℚ)) from rfl]
    rw [← List.map_map, pfSum_map_q, list_sum_div]
    rw [show (((meltRecs df).filter (fun p => meltKeyOf df.cols p = k)).map
      (fun p => countVal (p.1 p.2))).sum = meltTotal df k from rfl]
    rw [div_self (by exact_mod_cast hT)]
  · intro hall hzero v hv
    rw [groupPcts_long df long hok k] at hv
    obtain ⟨n, hn, hvn⟩ := List.mem_map.mp hv
    have hn2 : n ∈ groupCounts long k := by
      rw [groupCounts_long df long hok k]
      exact hn
    have hn0 : n = 0 := all_zero_of_sum_zero (groupCounts long k) hall hzero n hn2
    have hT0 : meltTotal df k = 0 := by
      rw [← groupCounts_sum_long df long hok k]
      exact hzero
    rw [← hvn, hn0, hT0]
    rfl

/-- Witness for C1: a one-row wide table with grades 1 and 3 in section X
has a nonzero group total, and its Pct values sum exactly to 1, inside
[0.99, 1.01]. -/
theorem to_long_pct_spec_w :
    ∃ s : ℚ, pfSum (groupPcts c1wLong [Cell.str "X"]) = PF.q s ∧ s = 1 ∧
      (99 : ℚ) / 100 ≤ s ∧ s ≤ (101 : ℚ) / 100 :=
  (to_long_pct_spec c1wDf c1wLong [Cell.str "X"] rfl).2.1 (by decide)

/-- Claim C1 counterexample: in the long table of a wide table whose
section X has counts 1 and -1, the group total is zero yet the Pct values
are the signed infinities, not nan, refuting the claim that Pct is
not-a-number on every zero-total group. -/
theorem to_long_pct_cex :
    to_long c1cDf = Except.ok c1cLong ∧
    (groupCounts c1cLong [Cell.str "X"]).sum = 0 ∧
    groupPcts c1cLong [Cell.str "X"] = [PF.pinf, PF.ninf] ∧
    PF.pinf ≠ PF.nan :=
  ⟨rfl, by decide, by decide, by decide⟩

/-! ## Theorems: per-section validation (C6) and the summary count (C7) -/

theorem uniqAux_mem {α : Type} [DecidableEq α] (l : List α) :
    ∀ (seen : List α) (a : α), a ∈ uniqAux seen l ↔ (a ∈ l ∧ a ∉ seen) := by
  induction l with
  | nil =>
    intro seen a
    simp [uniqAux]
  | cons b t ih =>
    intro seen a
    by_cases hb : b ∈ seen
    · rw [show uniqAux seen (b :: t) = uniqAux seen t from by rw [uniqAux, if_pos hb]]
      rw [ih seen a]
      simp only [List.mem_cons]
      constructor
      · exact fun h => ⟨Or.inr h.1, h.2⟩
      · rintro ⟨h1 | h1, h2⟩
        · subst h1
          exact absurd hb h2
        · exact ⟨h1, h2⟩
    · rw [show uniqAux seen (b :: t) = b :: uniqAux (b :: seen) t from by
        rw [uniqAux, if_neg hb]]
      simp only [List.mem_cons, ih (b :: seen) a]
      constructor
      · rintro (h | ⟨h1, h2⟩)
        · subst h
          exact ⟨Or.inl rfl, hb⟩
        · exact ⟨Or.inr h1, fun hs => h2 (Or.inr hs)⟩
      · rintro ⟨h1 | h1, h2⟩
        · exact Or.inl h1
        · by_cases hab : a = b
          · exact Or.inl hab
          · exact Or.inr ⟨h1, fun hc => hc.elim hab h2⟩

theorem mem_uniqList {α : Type} [DecidableEq α] (l : List α) (a : α) :
    a ∈ uniqList l ↔ a ∈ l := by
  unfold uniqList
  rw [uniqAux_mem]
  simp

theorem uniqAux_filter {α : Type} [DecidableEq α] (l : List α) :
    ∀ (seen : List α) (k : α), k ∈ l → k ∉ seen →
      (uniqAux seen l).filter (fun x => x = k) = [k] := by
  induction l with
  | nil =>
    intro seen k hk _
    simp at hk
  | cons b t ih =>
    intro seen k hk hks
    by_cases hb : b ∈ seen
    · rw [show uniqAux seen (b :: t) = uniqAux seen t from by rw [uniqAux, if_pos hb]]
      have hkt : k ∈ t := by
        rcases List.mem_cons.mp hk with h | h
        · subst h
          exact absurd hb hks
        · exact h
      exact ih seen k hkt hks
    · rw [show uniqAux seen (b :: t) = b :: uniqAux (b :: seen) t from by
        rw [uniqAux, if_neg hb]]
      rw [List.filter_cons]
      by_cases hbk : b = k
      · subst hbk
        rw [if_pos (by simp)]
        have hnil : (uniqAux (b :: seen) t).filter (fun x => x = b) = [] := by
          apply List.filter_eq_nil_iff.mpr
          intro x hx
          have hx2 := (uniqAux_mem t (b :: seen) x).mp hx
          simp only [decide_eq_true_eq]
          intro hxb
          exact hx2.2 (hxb ▸ List.mem_cons_self b seen)
        rw [hnil]
      · rw [if_neg (by simp [hbk])]
        have hkt : k ∈ t := by
          rcases List.mem_cons.mp hk with h | h
          · exact absurd h.symm hbk
          · exact h
        exact ih (b :: seen) k hkt
          (fun hc => (List.mem_cons.mp hc).elim (fun h => hbk h.symm) hks)

theorem uniqList_filter_self {α : Type} [DecidableEq α] (l : List α) (k : α) (h : k ∈ l) :
    (uniqList l).filter (fun x => x = k) = [k] :=
  uniqAux_filter l [] k h (by simp)

/-- Claim C6: for every section key occurring in a long table,
validate_long produces exactly one aggregate row for it, whose
total_counts is the sum of the group Count values, whose pct_sum is the
skipna sum of the group Pct values, whose n_grade_bins is the number of
distinct non-missing Grade values of the group, whose ok_pct_sum is true
exactly when pct_sum rounded to three decimals lies in [0.99, 1.01], and
whose ok_nonzero is true exactly when total_counts is positive; in
particular a zero-total key gets ok_nonzero = false. -/
theorem validate_long_spec (long : DataFrame) (k : List Cell)
    (hk : k ∈ long.rows.map (rowKey long)) :
    ((validate_long long).filter (fun v => v.key = k)) = [mkValRow long k] ∧
    (mkValRow long k).key = k ∧
    (mkValRow long k).total_counts = (groupCounts long k).sum ∧
    (mkValRow long k).pct_sum = pfSumSkipNa (groupPcts long k) ∧
    (mkValRow long k).n_grade_bins = gradeBins (groupRows long k) ∧
    ((mkValRow long k).ok_pct_sum = true ↔
      pfBetween (pfRound3 ((mkValRow long k).pct_sum)) (99/100) (101/100) = true) ∧
    ((mkValRow long k).ok_nonzero = true ↔ 0 < (mkValRow long k).total_counts) ∧
    ((groupCounts long k).sum = 0 → (mkValRow long k).ok_nonzero = false) := by
  refine ⟨?_, rfl, rfl, rfl, rfl, Iff.rfl, ?_, ?_⟩
  · unfold validate_long
    rw [filter_of_map (mkValRow long) (fun v => decide (v.key = k))
      (uniqList (long.rows.map (rowKey long)))]
    have hpred : ∀ a ∈ uniqList (long.rows.map (rowKey long)),
        (decide ((mkValRow long a).key = k)) = (decide (a = k)) := fun a _ => rfl
    rw [List.filter_congr hpred, uniqList_filter_self _ k hk]
    rfl
  · exact ⟨of_decide_eq_true, decide_eq_true⟩
  · intro hz
    show decide (0 < (groupCounts long k).sum) = false
    rw [hz]
    rfl

/-- Witness for C6: on a two-row long table of the single section X
(grades A and B, counts 3 and 1), the validator has exactly one row for
key X. -/
theorem validate_long_spec_w :
    ((validate_long c6Long).filter (fun v => v.key = [Cell.str "X"])) =
      [mkValRow c6Long [Cell.str "X"]] :=
  (validate_long_spec c6Long [Cell.str "X"] (by decide)).1

/-- Claim C7 (code bug): the summary of line 175 groups without
dropna=False, unlike the reshaper (line 99) and the validator (line 114),
so a long table whose single row has a missing CourseID yields one
validator section but a summary section count of zero. -/
theorem summary_sections_cex :
    c7Long.rows.length = 1 ∧
    (validate_long c7Long).length = 1 ∧
    summary_sections c7Long = 0 := by
  refine ⟨rfl, ?_, ?_⟩ <;> decide
